import Mathlib

/-!
Shallow embedding of `src/queries.rs` from the sled-es repository: the
`GenericQueryRepository` read-model store (load / apply_events / commit)
backed by a sled key-value store.

Modelling conventions:
  * sled trees are modelled as a total map `tree name → key → Option String`
    (stored bytes as `String`); the fallibility of the external sled calls
    (`open_tree`, `get`, `insert`) is modelled by oracle fields of `Db` that
    say, per tree/key, whether the call returns `Err` (and with which message).
  * Rust panics (`.unwrap()`, `panic!`) are modelled by the `RRes.halted`
    outcome, which records what diagnostic data the panic message carries.
  * the optional error handler `Option<Box<dyn Fn(AggregateError)>>` is an
    opaque callback; only its presence and the list of arguments it is invoked
    with are observable, so results carry a log of handler invocations.
  * the generic view type `V : Query<A, E> (Debug + Default + Serialize +
    DeserializeOwned)` is modelled by the capability record `ViewImpl V E`:
    `serde_json::to_value` produces a `Json` value, `serde_json::from_slice`
    decodes stored bytes, `debugFmt` is the `Debug` rendering.
-/

set_option autoImplicit false

namespace SledEs

/-- JSON values as produced by `serde_json::to_value`. Only the distinction
between string values and everything else matters to `commit`, which calls
`payload.as_str().unwrap()`. -/
inductive Json where
  | str (s : String)
  | num (n : Int)
  | bool (b : Bool)
  | nul
  | arr (elems : List Json)

/-- Rust `serde_json::Value::as_str`: `Some` of the inner string for a JSON
string value, `None` for every other JSON value. -/
def Json.asStr : Json → Option String
  | .str s => some s
  | _ => none

/-- The `cqrs_es::AggregateError` values handed to the error handler; the
`From<serde_json::Error>` conversion produces a technical error carrying the
serde message. -/
inductive AggregateError where
  | TechnicalError (msg : String)
  deriving DecidableEq

/-- Diagnostic content of a Rust panic, distinguishing the bare `.unwrap()`
panics (whose message is only the underlying error's text, or the generic
`Option::unwrap` message) from the two explicit `panic!` calls in
`QueryContext::commit`, which carry the instance id, the query name, the
cause, and (for the serialization panic) the `Debug` rendering of the view. -/
inductive Panic where
  | unwrap (msg : String)
  | convertView (query_instance_id query_name err viewDebug : String)
  | updateView (query_instance_id query_name err : String)
  deriving DecidableEq

/-- Outcome of running a piece of the Rust code: a normal return value or a
panic, in both cases together with the log of arguments the registered error
handler was invoked with during the run. -/
inductive RRes (α : Type) where
  | ok (value : α) (handlerCalls : List AggregateError)
  | halted (p : Panic) (handlerCalls : List AggregateError)
  deriving DecidableEq

/-- Handler-invocation log of an outcome. -/
def RRes.handlerCallsOf {α : Type} : RRes α → List AggregateError
  | .ok _ c => c
  | .halted _ c => c

/-- The sled `Db`: `trees` maps a tree name and key to the stored bytes;
the three `*Err` oracles model the external sled calls returning `Err`
(`some msg` makes the corresponding call fail with that message). -/
structure Db where
  trees : String → String → Option String
  openTreeErr : String → Option String
  getErr : String → String → Option String
  insertErr : String → String → Option String

/-- Effect of a successful `tree.insert(key, value)` on tree `name`. -/
def Db.insert (db : Db) (name key v : String) : Db :=
  { db with trees := fun n k => if n = name && k = key then some v else db.trees n k }

/-- A `Db` none of whose external sled calls fail. -/
def Db.faultFree (db : Db) : Prop :=
  (∀ n, db.openTreeErr n = none) ∧
  (∀ n k, db.getErr n k = none) ∧
  (∀ n k, db.insertErr n k = none)

/-- Capabilities of the view type `V` over events `E`: the trait bounds
`Query<A, E>` (default + update) plus `Serialize`/`DeserializeOwned`/`Debug`.
Serde failures are modelled as `Except String`. -/
structure ViewImpl (V E : Type) where
  default : V
  update : V → E → V
  toValue : V → Except String Json
  fromSlice : String → Except String V
  debugFmt : V → String

/-- `QueryContext`: the (query_name, query_instance_id) pair under which
`commit` writes. -/
structure QueryContext where
  query_name : String
  query_instance_id : String
  deriving DecidableEq

/-- `GenericQueryRepository` state relevant to the embedding: the bound
namespace string and whether an error handler is registered (the handler
itself is an opaque callback, so only its presence is modelled). -/
structure GenericQueryRepository where
  query_name : String
  error_handler : Option Unit

/-- `GenericQueryRepository::view_name`. -/
def view_name (repo : GenericQueryRepository) : String :=
  repo.query_name

/-- `GenericQueryRepository::load_mut` (queries.rs lines 46-70): opens the
tree, reads the record and deserializes it, with `.unwrap()` on each external
failure; an absent record yields the view's default value. The declared
`Result<_, AggregateError>` error case is represented but, as every internal
failure unwraps (panics), it is never produced. -/
def load_mut {V E : Type} (vi : ViewImpl V E) (repo : GenericQueryRepository)
    (db : Db) (query_instance_id : String) :
    RRes (Except AggregateError (V × QueryContext)) :=
  match db.openTreeErr (view_name repo) with
  | some e => .halted (.unwrap e) []
  | none =>
    match db.getErr (view_name repo) query_instance_id with
    | some e => .halted (.unwrap e) []
    | none =>
      match db.trees (view_name repo) query_instance_id with
      | some bytes =>
        match vi.fromSlice bytes with
        | .error e => .halted (.unwrap e) []
        | .ok view => .ok (.ok (view, ⟨view_name repo, query_instance_id⟩)) []
      | none => .ok (.ok (vi.default, ⟨repo.query_name, query_instance_id⟩)) []

/-- `QueryContext::commit` (queries.rs lines 132-156): serialize the view via
`serde_json::to_value` (explicit `panic!` with instance id, query name, cause
and `Debug` view on failure), open the tree (`.unwrap()`), convert the payload
with `as_str().unwrap()`, and insert (explicit `panic!` with instance id,
query name and cause on failure). -/
def commit {V E : Type} (vi : ViewImpl V E) (ctx : QueryContext) (db : Db)
    (view : V) : RRes Db :=
  match vi.toValue view with
  | .error err =>
      .halted (.convertView ctx.query_instance_id ctx.query_name err (vi.debugFmt view)) []
  | .ok payload =>
    match db.openTreeErr ctx.query_name with
    | some e => .halted (.unwrap e) []
    | none =>
      match payload.asStr with
      | none => .halted (.unwrap "called Option::unwrap() on a None value") []
      | some value =>
        match db.insertErr ctx.query_name ctx.query_instance_id with
        | some err => .halted (.updateView ctx.query_instance_id ctx.query_name err) []
        | none => .ok (db.insert ctx.query_name ctx.query_instance_id value) []

/-- `GenericQueryRepository::apply_events` (queries.rs lines 72-85): load the
view, fold the events in order via `update`, and commit; on a load error
invoke the handler if registered (a branch that is in fact unreachable,
because `load_mut` panics internally instead of returning `Err`). -/
def apply_events {V E : Type} (vi : ViewImpl V E) (repo : GenericQueryRepository)
    (db : Db) (query_instance_id : String) (events : List E) : RRes Db :=
  match load_mut vi repo db query_instance_id with
  | .halted p c => .halted p c
  | .ok (.ok (view, view_context)) c₀ =>
      match commit vi view_context db (events.foldl vi.update view) with
      | .ok db' c => .ok db' (c₀ ++ c)
      | .halted p c => .halted p (c₀ ++ c)
  | .ok (.error e) c₀ =>
      match repo.error_handler with
      | none => .ok db c₀
      | some _ => .ok db (c₀ ++ [e])

/-- `GenericQueryRepository::load` (queries.rs lines 87-105): open the tree
and read (`.unwrap()` on either failing); an absent record is `None`; a
present record that fails to deserialize invokes the handler (if registered)
with the converted serde error and still returns `None`. -/
def load {V E : Type} (vi : ViewImpl V E) (repo : GenericQueryRepository)
    (db : Db) (query_instance_id : String) : RRes (Option V) :=
  match db.openTreeErr (view_name repo) with
  | some e => .halted (.unwrap e) []
  | none =>
    match db.getErr (view_name repo) query_instance_id with
    | some e => .halted (.unwrap e) []
    | none =>
      match db.trees (view_name repo) query_instance_id with
      | some bytes =>
        match vi.fromSlice bytes with
        | .ok view => .ok (some view) []
        | .error e =>
          match repo.error_handler with
          | none => .ok none []
          | some _ => .ok none [AggregateError.TechnicalError e]
      | none => .ok none []

/-- `QueryProcessor::dispatch` for `GenericQueryRepository` (queries.rs lines
114-116): forwards directly to `apply_events`. -/
def dispatch {V E : Type} (vi : ViewImpl V E) (repo : GenericQueryRepository)
    (db : Db) (query_instance_id : String) (events : List E) : RRes Db :=
  apply_events vi repo db query_instance_id events

/-! Concrete instantiations used by the scenario claims and witnesses. -/

/-- Value of a decimal digit character. -/
def digitVal (c : Char) : Option Nat :=
  if c.isDigit then some (c.toNat - '0'.toNat) else none

/-- Accumulating decimal decode of a digit string. -/
def decDigitsAux : List Char → Nat → Option Nat
  | [], acc => some acc
  | c :: cs, acc =>
    match digitVal c with
    | some d => decDigitsAux cs (acc * 10 + d)
    | none => none

/-- Decimal decode of a nonempty digit string. -/
def decDigits (l : List Char) : Option Nat :=
  match l with
  | [] => none
  | _ => decDigitsAux l 0

/-- Decode an optionally sign-prefixed decimal integer string. -/
def parseIntString (s : String) : Option Int :=
  match s.data with
  | '-' :: rest => (decDigits rest).map (fun n => -(n : Int))
  | l => (decDigits l).map (fun n => (n : Int))

/-- Events of the balance scenario from the spec (section 8). -/
inductive BalanceEvent where
  | Deposit (n : Int)
  | Withdraw (n : Int)

/-- The integer-counter view of the balance scenario: default `0`, deposits
add and withdrawals subtract, serialized as the decimal string JSON value. -/
def balanceView : ViewImpl Int BalanceEvent where
  default := 0
  update := fun v e =>
    match e with
    | .Deposit n => v + n
    | .Withdraw n => v - n
  toValue := fun v => .ok (.str (toString v))
  fromSlice := fun s =>
    match parseIntString s with
    | some n => .ok n
    | none => .error ("invalid view bytes: " ++ s)
  debugFmt := fun v => toString v

/-- String encoding of the `boolView` fixture. -/
def encBool (b : Bool) : String :=
  if b then "true" else "false"

/-- A minimal round-trippable view fixture over boolean events (fold by
exclusive or), used to instantiate the universally quantified theorems. -/
def boolView : ViewImpl Bool Bool where
  default := false
  update := fun v e => xor v e
  toValue := fun v => .ok (.str (encBool v))
  fromSlice := fun s =>
    if s = "true" then .ok true
    else if s = "false" then .ok false
    else .error ("invalid view bytes: " ++ s)
  debugFmt := encBool

/-- A view fixture whose serialization always fails, to exercise the
`convertView` panic of `commit`. -/
def failingSerView : ViewImpl Int BalanceEvent where
  default := 0
  update := fun v _ => v
  toValue := fun _ => .error "serialization refused"
  fromSlice := fun _ => .error "never deserializes"
  debugFmt := fun _ => "failingSerView value"

/-- A view fixture serializing to a JSON number (a non-string JSON value), to
exercise the `as_str().unwrap()` panic of `commit`. -/
def numView : ViewImpl Int BalanceEvent where
  default := 0
  update := fun v _ => v
  toValue := fun v => .ok (.num v)
  fromSlice := fun s =>
    match parseIntString s with
    | some n => .ok n
    | none => .error ("invalid view bytes: " ++ s)
  debugFmt := fun v => toString v

/-- A fault-free `Db` with no stored records. -/
def emptyDb : Db where
  trees := fun _ _ => none
  openTreeErr := fun _ => none
  getErr := fun _ _ => none
  insertErr := fun _ _ => none

/-- A fault-free `Db` whose only record, under ("balance", "acct-1"), holds
bytes that do not deserialize as an integer view. -/
def corruptDb : Db where
  trees := fun n k => if n = "balance" && k = "acct-1" then some "XYZ" else none
  openTreeErr := fun _ => none
  getErr := fun _ _ => none
  insertErr := fun _ _ => none

/-- A `Db` with no records whose `get` on ("balance", "acct-1") fails with an
I/O error. -/
def getFailDb : Db where
  trees := fun _ _ => none
  openTreeErr := fun _ => none
  getErr := fun n k => if n = "balance" && k = "acct-1" then some "sled get: io error" else none
  insertErr := fun _ _ => none

/-- A `Db` with no records whose `insert` on ("balance", "acct-1") fails. -/
def insertFailDb : Db where
  trees := fun _ _ => none
  openTreeErr := fun _ => none
  getErr := fun _ _ => none
  insertErr := fun n k => if n = "balance" && k = "acct-1" then some "sled insert: write rejected" else none

/-- Iterated `apply_events id []` calls against the store, propagating the
updated store between calls and stopping at the first panic. -/
def applyEmptyIter {V E : Type} (vi : ViewImpl V E) (repo : GenericQueryRepository)
    (id : String) : Nat → Db → RRes Db
  | 0, db => .ok db []
  | n + 1, db =>
    match apply_events vi repo db id ([] : List E) with
    | .ok db' _ => applyEmptyIter vi repo id n db'
    | .halted p c => .halted p c

/-! Helper lemmas about `Db.insert`. -/

theorem Db.insert_trees_self (db : Db) (name key v : String) :
    (db.insert name key v).trees name key = some v := by
  simp [Db.insert]

theorem Db.insert_faults (db : Db) (name key v : String) :
    (db.insert name key v).openTreeErr = db.openTreeErr ∧
    (db.insert name key v).getErr = db.getErr ∧
    (db.insert name key v).insertErr = db.insertErr :=
  ⟨rfl, rfl, rfl⟩

theorem Db.faultFree_insert {db : Db} (h : db.faultFree) (name key v : String) :
    (db.insert name key v).faultFree := h

theorem Db.insert_insert (db : Db) (name key a b : String) :
    (db.insert name key a).insert name key b = db.insert name key b := by
  unfold Db.insert
  refine congrArg (fun t => { db with trees := t }) ?_
  funext n k
  by_cases h : n = name && k = key <;> simp [h]

theorem Db.insert_self {db : Db} {name key v : String}
    (h : db.trees name key = some v) : db.insert name key v = db := by
  unfold Db.insert
  have ht : (fun n k => if n = name && k = key then some v else db.trees n k) = db.trees := by
    funext n k
    by_cases hc : n = name && k = key
    · simp only [hc, if_true]
      rcases Bool.and_eq_true_iff.mp hc with ⟨h1, h2⟩
      rw [decide_eq_true_eq] at h1 h2
      rw [h1, h2, h]
    · simp [hc]
  rw [ht]

/-- A JSON value whose `asStr` succeeds is a string value. -/
theorem Json.eq_str_of_asStr {j : Json} {s : String} (h : j.asStr = some s) :
    j = .str s := by
  cases j with
  | str t => simp only [Json.asStr, Option.some.injEq] at h; rw [h]
  | num n => simp [Json.asStr] at h
  | bool b => simp [Json.asStr] at h
  | nul => simp [Json.asStr] at h
  | arr l => simp [Json.asStr] at h

/-- `load_mut` never invokes the error handler, whatever the outcome. -/
theorem load_mut_log_nil {V E : Type} (vi : ViewImpl V E)
    (repo : GenericQueryRepository) (db : Db) (id : String) :
    (load_mut vi repo db id).handlerCallsOf = [] := by
  unfold load_mut
  split
  · rfl
  · split
    · rfl
    · split
      · split
        · rfl
        · rfl
      · rfl

/-- `commit` never invokes the error handler, whatever the outcome (it does
not even hold a reference to it). -/
theorem commit_log_nil {V E : Type} (vi : ViewImpl V E) (ctx : QueryContext)
    (db : Db) (view : V) :
    (commit vi ctx db view).handlerCallsOf = [] := by
  unfold commit
  split
  · rfl
  · split
    · rfl
    · split
      · rfl
      · split
        · rfl
        · rfl

/-! The happy path of `apply_events`: with fault-free storage, a record that
is either absent (view defaults) or deserializable, and a folded view that
serializes to a JSON string, `apply_events` stores that string under
(query_name, id) and makes no handler call. -/

theorem apply_events_ok_of {V E : Type} (vi : ViewImpl V E)
    (repo : GenericQueryRepository) (db : Db) (hff : db.faultFree) (id : String)
    (v0 : V)
    (h0 : (db.trees repo.query_name id = none ∧ v0 = vi.default) ∨
          (∃ b, db.trees repo.query_name id = some b ∧ vi.fromSlice b = .ok v0))
    (events : List E) (s : String)
    (hs : vi.toValue (events.foldl vi.update v0) = .ok (.str s)) :
    apply_events vi repo db id events = .ok (db.insert repo.query_name id s) [] := by
  obtain ⟨hot, hget, hins⟩ := hff
  rcases h0 with ⟨hnone, hv0⟩ | ⟨b, hb, hdec⟩
  · subst hv0
    simp only [apply_events, load_mut, commit, view_name, hot, hget, hnone, hs,
      Json.asStr, hins, List.nil_append]
  · simp only [apply_events, load_mut, commit, view_name, hot, hget, hb, hdec, hs,
      Json.asStr, hins, List.nil_append]

/-- C1: for every view state and every pair of event sequences `e1`, `e2`,
running `apply_events id e1` and then `apply_events id e2` sequentially leaves
exactly the same stored outcome as running `apply_events id (e1 ++ e2)` in one
call, and the persisted record is the string encoding of the left-fold of
`update` over all events seen so far (starting from the stored view, or the
default when no record exists). Hypotheses: fault-free storage and a view
type whose serialization round-trips through its string encoding `enc`. -/
theorem c1_apply_events_sequential_eq_batched {V E : Type} (vi : ViewImpl V E)
    (repo : GenericQueryRepository) (enc : V → String)
    (hser : ∀ v, vi.toValue v = .ok (.str (enc v)))
    (hdes : ∀ v, vi.fromSlice (enc v) = .ok v)
    (db : Db) (hff : db.faultFree) (id : String) (v0 : V)
    (h0 : (db.trees repo.query_name id = none ∧ v0 = vi.default) ∨
          db.trees repo.query_name id = some (enc v0))
    (e1 e2 : List E) :
    apply_events vi repo db id e1 =
      .ok (db.insert repo.query_name id (enc (e1.foldl vi.update v0))) [] ∧
    apply_events vi repo (db.insert repo.query_name id (enc (e1.foldl vi.update v0))) id e2 =
      apply_events vi repo db id (e1 ++ e2) ∧
    apply_events vi repo db id (e1 ++ e2) =
      .ok (db.insert repo.query_name id (enc ((e1 ++ e2).foldl vi.update v0))) [] := by
  have h0' : (db.trees repo.query_name id = none ∧ v0 = vi.default) ∨
      (∃ b, db.trees repo.query_name id = some b ∧ vi.fromSlice b = .ok v0) := by
    rcases h0 with h | h
    · exact .inl h
    · exact .inr ⟨enc v0, h, hdes v0⟩
  have h1 : apply_events vi repo db id e1 =
      .ok (db.insert repo.query_name id (enc (e1.foldl vi.update v0))) [] :=
    apply_events_ok_of vi repo db hff id v0 h0' e1 _ (hser _)
  have h12 : apply_events vi repo db id (e1 ++ e2) =
      .ok (db.insert repo.query_name id (enc ((e1 ++ e2).foldl vi.update v0))) [] :=
    apply_events_ok_of vi repo db hff id v0 h0' (e1 ++ e2) _ (hser _)
  refine ⟨h1, ?_, h12⟩
  have h2 : apply_events vi repo (db.insert repo.query_name id (enc (e1.foldl vi.update v0))) id e2 =
      .ok ((db.insert repo.query_name id (enc (e1.foldl vi.update v0))).insert
        repo.query_name id (enc (e2.foldl vi.update (e1.foldl vi.update v0)))) [] :=
    apply_events_ok_of vi repo _ (Db.faultFree_insert hff _ _ _) id (e1.foldl vi.update v0)
      (.inr ⟨_, Db.insert_trees_self db _ id _, hdes _⟩) e2 _ (hser _)
  rw [h2, h12, Db.insert_insert, List.foldl_append]

/-- Witness for C1 at the boolean-xor view, namespace "balance", instance id
"acct-1", starting from an empty store, with `e1 = [true]` and
`e2 = [true, false]`. -/
theorem c1_witness :
    apply_events boolView ⟨"balance", none⟩ emptyDb "acct-1" [true] =
      .ok (emptyDb.insert "balance" "acct-1" "true") [] ∧
    apply_events boolView ⟨"balance", none⟩ (emptyDb.insert "balance" "acct-1" "true")
      "acct-1" [true, false] =
      apply_events boolView ⟨"balance", none⟩ emptyDb "acct-1" ([true] ++ [true, false]) ∧
    apply_events boolView ⟨"balance", none⟩ emptyDb "acct-1" ([true] ++ [true, false]) =
      .ok (emptyDb.insert "balance" "acct-1" "false") [] :=
  c1_apply_events_sequential_eq_batched boolView ⟨"balance", none⟩ encBool
    (fun _ => rfl) (fun v => by cases v <;> rfl) emptyDb
    ⟨fun _ => rfl, fun _ _ => rfl, fun _ _ => rfl⟩ "acct-1" false
    (.inl ⟨rfl, rfl⟩) [true] [true, false]

/-- C2: for namespace "balance" and instance id "acct-1" with the
integer-counter view defaulting to 0, `apply_events` with the three events
stepping +10, +5, -3 stores a record ("12") that `load` returns as the value
12, with no handler invocation. -/
theorem c2_balance_scenario :
    ∃ db₁ : Db,
      apply_events balanceView ⟨"balance", none⟩ emptyDb "acct-1"
        [.Deposit 10, .Deposit 5, .Withdraw 3] = .ok db₁ [] ∧
      db₁.trees "balance" "acct-1" = some "12" ∧
      load balanceView ⟨"balance", none⟩ db₁ "acct-1" = .ok (some 12) [] := by
  refine ⟨emptyDb.insert "balance" "acct-1" "12", ?_, ?_, ?_⟩
  · rfl
  · rfl
  · rfl

/-- C3 (code behaviour at the failing input): with an error handler
registered and a stored record "XYZ" under ("balance", "acct-1") that fails to
deserialize, `apply_events` does not invoke the handler and does not abort
cleanly: it panics through the `.unwrap()` inside `load_mut` (handler log
empty), instead of the spec-claimed handler invocation. -/
theorem c3_corrupt_record_panics_without_handler :
    apply_events balanceView ⟨"balance", some ()⟩ corruptDb "acct-1"
      ([] : List BalanceEvent) = .halted (.unwrap "invalid view bytes: XYZ") [] := by
  rfl

/-- C5: when the stored record under (query_name, id) exists but fails to
deserialize, `load` returns `None` without panicking; the handler, when
registered, is invoked exactly once with the converted deserialization error,
and when not registered nothing is invoked. -/
theorem c5_load_corrupt_returns_none_and_reports {V E : Type} (vi : ViewImpl V E)
    (repo : GenericQueryRepository) (db : Db) (id b e : String)
    (hot : db.openTreeErr repo.query_name = none)
    (hget : db.getErr repo.query_name id = none)
    (hb : db.trees repo.query_name id = some b)
    (he : vi.fromSlice b = .error e) :
    (repo.error_handler.isSome →
      load vi repo db id = .ok none [AggregateError.TechnicalError e]) ∧
    (repo.error_handler = none → load vi repo db id = .ok none []) := by
  constructor <;> intro h
  · obtain ⟨u, hu⟩ := Option.isSome_iff_exists.mp h
    simp only [load, view_name, hot, hget, hb, he, hu]
  · simp only [load, view_name, hot, hget, hb, he, h]

/-- Witness for C5 at the corrupt record "XYZ" under ("balance", "acct-1")
with a handler registered. -/
theorem c5_witness :
    load balanceView ⟨"balance", some ()⟩ corruptDb "acct-1" =
      .ok none [AggregateError.TechnicalError "invalid view bytes: XYZ"] :=
  (c5_load_corrupt_returns_none_and_reports balanceView ⟨"balance", some ()⟩
    corruptDb "acct-1" "XYZ" "invalid view bytes: XYZ" rfl rfl rfl rfl).1 rfl

/-- C6 counterexample: with no handler registered and the storage `get`
failing with a read error on ("balance", "acct-1"), `load` does NOT return the
absence-value: the claim fails at this concrete input because the code calls
`.unwrap()` on the `get` result. -/
theorem c6_counterexample :
    load balanceView ⟨"balance", none⟩ getFailDb "acct-1" ≠ .ok none [] := by
  decide

/-- C6 amended: when the storage layer returns a read error from `get` (and
the tree opened), `load` panics through `.unwrap()` with that error —
regardless of whether an error handler is registered — rather than returning
the absence-value. -/
theorem c6_amended_get_error_panics {V E : Type} (vi : ViewImpl V E)
    (repo : GenericQueryRepository) (db : Db) (id e : String)
    (hot : db.openTreeErr repo.query_name = none)
    (hget : db.getErr repo.query_name id = some e) :
    load vi repo db id = .halted (.unwrap e) [] := by
  simp only [load, view_name, hot, hget]

/-- Witness for the amended C6 at the concrete failing `get`. -/
theorem c6_witness :
    load balanceView ⟨"balance", none⟩ getFailDb "acct-1" =
      .halted (.unwrap "sled get: io error") [] :=
  c6_amended_get_error_panics balanceView ⟨"balance", none⟩ getFailDb "acct-1"
    "sled get: io error" rfl rfl

/-- C8: for an instance id with no stored record in this namespace and
fault-free storage, `load` returns `None` (not an error, no handler call), and
`apply_events` starts the fold from the view's default value and succeeds,
storing the serialization of the fold-from-default result. -/
theorem c8_unknown_instance_defaults {V E : Type} (vi : ViewImpl V E)
    (repo : GenericQueryRepository) (db : Db) (id : String) (events : List E)
    (s : String) (hff : db.faultFree)
    (h0 : db.trees repo.query_name id = none)
    (hs : vi.toValue (events.foldl vi.update vi.default) = .ok (.str s)) :
    load vi repo db id = .ok none [] ∧
    apply_events vi repo db id events = .ok (db.insert repo.query_name id s) [] := by
  refine ⟨?_, apply_events_ok_of vi repo db hff id vi.default (.inl ⟨h0, rfl⟩) events s hs⟩
  obtain ⟨hot, hget, _⟩ := hff
  simp only [load, view_name, hot, hget, h0]

/-- Witness for C8 at the boolean-xor view on an empty store. -/
theorem c8_witness :
    load boolView ⟨"balance", none⟩ emptyDb "acct-2" = .ok none [] ∧
    apply_events boolView ⟨"balance", none⟩ emptyDb "acct-2" [true, true] =
      .ok (emptyDb.insert "balance" "acct-2" "false") [] :=
  c8_unknown_instance_defaults boolView ⟨"balance", none⟩ emptyDb "acct-2"
    [true, true] "false" ⟨fun _ => rfl, fun _ _ => rfl, fun _ _ => rfl⟩ rfl rfl

/-- C4: a serialization failure in `commit` halts with the instance id, the
query name, the underlying cause and the `Debug` rendering of the view; a
storage-write (insert) failure halts with the instance id, the query name and
the underlying cause; and no `commit` outcome ever carries an error-handler
invocation (the handler is structurally out of `commit`'s reach). -/
theorem c4_commit_failures_halt_with_context {V E : Type} (vi : ViewImpl V E)
    (ctx : QueryContext) (db : Db) (view : V) :
    (∀ err, vi.toValue view = .error err →
      commit vi ctx db view =
        .halted (.convertView ctx.query_instance_id ctx.query_name err (vi.debugFmt view)) []) ∧
    (∀ s err, vi.toValue view = .ok (.str s) →
      db.openTreeErr ctx.query_name = none →
      db.insertErr ctx.query_name ctx.query_instance_id = some err →
      commit vi ctx db view =
        .halted (.updateView ctx.query_instance_id ctx.query_name err) []) ∧
    (commit vi ctx db view).handlerCallsOf = [] := by
  refine ⟨?_, ?_, commit_log_nil vi ctx db view⟩
  · intro err h
    simp only [commit, h]
  · intro s err h hot hins
    simp only [commit, h, hot, Json.asStr, hins]

/-- Witness for C4: the always-failing serializer halts `commit` with full
context, and a rejected insert halts `commit` with full context. -/
theorem c4_witness :
    commit failingSerView ⟨"balance", "acct-1"⟩ emptyDb 7 =
      .halted (.convertView "acct-1" "balance" "serialization refused"
        "failingSerView value") [] ∧
    commit balanceView ⟨"balance", "acct-1"⟩ insertFailDb 7 =
      .halted (.updateView "acct-1" "balance" "sled insert: write rejected") [] :=
  ⟨(c4_commit_failures_halt_with_context failingSerView ⟨"balance", "acct-1"⟩
      emptyDb 7).1 "serialization refused" rfl,
   (c4_commit_failures_halt_with_context balanceView ⟨"balance", "acct-1"⟩
      insertFailDb 7).2.1 "7" "sled insert: write rejected" rfl rfl rfl⟩

/-- C9: a view serializing to a non-string JSON value makes `commit` (and so
`apply_events`, here shown from an absent record) halt at the `as_str`
conversion instead of storing anything; conversely every successful `commit`
stored the inner contents of a JSON string serialization, unquoted. -/
theorem c9_only_string_serializations_persist {V E : Type} (vi : ViewImpl V E) :
    (∀ (ctx : QueryContext) (db : Db) (view : V) (j : Json),
      vi.toValue view = .ok j → j.asStr = none →
      db.openTreeErr ctx.query_name = none →
      commit vi ctx db view =
        .halted (.unwrap "called Option::unwrap() on a None value") []) ∧
    (∀ (repo : GenericQueryRepository) (db : Db) (id : String) (events : List E)
      (j : Json),
      db.openTreeErr repo.query_name = none →
      db.getErr repo.query_name id = none →
      db.trees repo.query_name id = none →
      vi.toValue (events.foldl vi.update vi.default) = .ok j → j.asStr = none →
      apply_events vi repo db id events =
        .halted (.unwrap "called Option::unwrap() on a None value") []) ∧
    (∀ (ctx : QueryContext) (db : Db) (view : V) (db' : Db)
      (c : List AggregateError),
      commit vi ctx db view = .ok db' c →
      ∃ s, vi.toValue view = .ok (.str s) ∧ c = [] ∧
        db' = db.insert ctx.query_name ctx.query_instance_id s) := by
  refine ⟨?_, ?_, ?_⟩
  · intro ctx db view j h hj hot
    simp only [commit, h, hot, hj]
  · intro repo db id events j hot hget h0 hs hj
    simp only [apply_events, load_mut, commit, view_name, hot, hget, h0, hs, hj,
      List.nil_append]
  · intro ctx db view db' c h
    unfold commit at h
    cases htv : vi.toValue view with
    | error err => simp only [htv] at h; exact RRes.noConfusion h
    | ok payload =>
      simp only [htv] at h
      cases hot : db.openTreeErr ctx.query_name with
      | some e => simp only [hot] at h; exact RRes.noConfusion h
      | none =>
        simp only [hot] at h
        cases hstr : payload.asStr with
        | none => simp only [hstr] at h; exact RRes.noConfusion h
        | some s =>
          simp only [hstr] at h
          cases hins : db.insertErr ctx.query_name ctx.query_instance_id with
          | some err => simp only [hins] at h; exact RRes.noConfusion h
          | none =>
            simp only [hins, RRes.ok.injEq] at h
            exact ⟨s, by rw [Json.eq_str_of_asStr hstr], h.2.symm, h.1.symm⟩

/-- Witness for C9 at the JSON-number view: committing halts at the `as_str`
conversion, and an `apply_events` call for that view type halts identically. -/
theorem c9_witness :
    commit numView ⟨"balance", "acct-1"⟩ emptyDb 5 =
      .halted (.unwrap "called Option::unwrap() on a None value") [] ∧
    apply_events numView ⟨"balance", none⟩ emptyDb "acct-1"
      ([.Deposit 1] : List BalanceEvent) =
      .halted (.unwrap "called Option::unwrap() on a None value") [] :=
  ⟨(c9_only_string_serializations_persist numView).1 ⟨"balance", "acct-1"⟩
      emptyDb 5 (.num 5) rfl rfl rfl,
   (c9_only_string_serializations_persist numView).2.1 ⟨"balance", none⟩
      emptyDb "acct-1" [.Deposit 1] (.num 0) rfl rfl rfl rfl rfl⟩

/-- C10: `load_mut` never returns the declared `Err` case (each internal
failure panics instead), so the error-handler branch of `apply_events` is
unreachable and no `apply_events` outcome ever carries a handler
invocation. -/
theorem c10_apply_events_handler_unreachable {V E : Type} (vi : ViewImpl V E)
    (repo : GenericQueryRepository) (db : Db) (id : String) :
    (∀ (e : AggregateError) (c : List AggregateError),
      load_mut vi repo db id ≠ .ok (.error e) c) ∧
    (∀ events : List E, (apply_events vi repo db id events).handlerCallsOf = []) := by
  have hload : ∀ (e : AggregateError) (c : List AggregateError),
      load_mut vi repo db id ≠ .ok (.error e) c := by
    intro e c h
    unfold load_mut at h
    split at h
    · cases h
    · split at h
      · cases h
      · split at h
        · split at h
          · cases h
          · injection h with h1 _
            cases h1
        · injection h with h1 _
          cases h1
  refine ⟨hload, ?_⟩
  intro events
  have hl0 := load_mut_log_nil vi repo db id
  unfold apply_events
  cases hl : load_mut vi repo db id with
  | halted p c =>
      rw [hl] at hl0
      exact hl0
  | ok v c =>
      rw [hl] at hl0
      simp only [RRes.handlerCallsOf] at hl0
      cases v with
      | error e => exact absurd hl (hload e c)
      | ok pair =>
        obtain ⟨view, ctx⟩ := pair
        have hc0 := commit_log_nil vi ctx db (events.foldl vi.update view)
        cases hc : commit vi ctx db (events.foldl vi.update view) with
        | ok db' c' =>
            rw [hc] at hc0
            simp only [RRes.handlerCallsOf] at hc0
            simp only [hc, hl0, hc0, RRes.handlerCallsOf, List.nil_append]
        | halted p c' =>
            rw [hc] at hc0
            simp only [RRes.handlerCallsOf] at hc0
            simp only [hc, hl0, hc0, RRes.handlerCallsOf, List.nil_append]

/-- Witness for C10 at the balance view over an empty store. -/
theorem c10_witness :
    load_mut balanceView ⟨"balance", some ()⟩ emptyDb "acct-1" ≠
      .ok (.error (AggregateError.TechnicalError "boom")) [] ∧
    (apply_events balanceView ⟨"balance", some ()⟩ emptyDb "acct-1"
      ([.Deposit 10] : List BalanceEvent)).handlerCallsOf = [] :=
  ⟨(c10_apply_events_handler_unreachable balanceView ⟨"balance", some ()⟩
      emptyDb "acct-1").1 (AggregateError.TechnicalError "boom") [],
   (c10_apply_events_handler_unreachable balanceView ⟨"balance", some ()⟩
      emptyDb "acct-1").2 [.Deposit 10]⟩

/-- C7: `apply_events id []` performs the load / no-op fold / commit cycle,
observably rewriting the record with the unchanged view's encoding, and
repeating the empty call any number of times leaves the stored view
value-equal to what it was before (the encoding of `v0`, which decodes back
to `v0`). Hypotheses: fault-free storage and a round-tripping view type. -/
theorem c7_apply_events_empty_idempotent {V E : Type} (vi : ViewImpl V E)
    (repo : GenericQueryRepository) (enc : V → String)
    (hser : ∀ v, vi.toValue v = .ok (.str (enc v)))
    (hdes : ∀ v, vi.fromSlice (enc v) = .ok v)
    (db : Db) (hff : db.faultFree) (id : String) (v0 : V)
    (h0 : (db.trees repo.query_name id = none ∧ v0 = vi.default) ∨
          db.trees repo.query_name id = some (enc v0)) :
    apply_events vi repo db id ([] : List E) =
      .ok (db.insert repo.query_name id (enc v0)) [] ∧
    vi.fromSlice (enc v0) = .ok v0 ∧
    ∀ n : Nat, applyEmptyIter vi repo id (n + 1) db =
      .ok (db.insert repo.query_name id (enc v0)) [] := by
  have h0' : (db.trees repo.query_name id = none ∧ v0 = vi.default) ∨
      (∃ b, db.trees repo.query_name id = some b ∧ vi.fromSlice b = .ok v0) := by
    rcases h0 with h | h
    · exact .inl h
    · exact .inr ⟨enc v0, h, hdes v0⟩
  have h1 : apply_events vi repo db id ([] : List E) =
      .ok (db.insert repo.query_name id (enc v0)) [] :=
    apply_events_ok_of vi repo db hff id v0 h0' [] _ (hser _)
  have h2 : apply_events vi repo (db.insert repo.query_name id (enc v0)) id ([] : List E) =
      .ok (db.insert repo.query_name id (enc v0)) [] := by
    have := apply_events_ok_of vi repo (db.insert repo.query_name id (enc v0))
      (Db.faultFree_insert hff _ _ _) id v0
      (.inr ⟨enc v0, Db.insert_trees_self db _ id _, hdes v0⟩) ([] : List E) _ (hser v0)
    rwa [Db.insert_insert] at this
  have hfix : ∀ n : Nat, applyEmptyIter vi repo id n
      (db.insert repo.query_name id (enc v0)) =
      .ok (db.insert repo.query_name id (enc v0)) [] := by
    intro n
    induction n with
    | zero => rfl
    | succ n ih =>
      show (match apply_events vi repo (db.insert repo.query_name id (enc v0)) id ([] : List E) with
        | .ok db' _ => applyEmptyIter vi repo id n db'
        | .halted p c => .halted p c) =
        .ok (db.insert repo.query_name id (enc v0)) []
      rw [h2]
      exact ih
  refine ⟨h1, hdes v0, ?_⟩
  intro n
  show (match apply_events vi repo db id ([] : List E) with
    | .ok db' _ => applyEmptyIter vi repo id n db'
    | .halted p c => .halted p c) =
    .ok (db.insert repo.query_name id (enc v0)) []
  rw [h1]
  exact hfix n

/-- Witness for C7 at the boolean-xor view with a pre-existing record "true"
under ("balance", "acct-1"), iterated four times. -/
theorem c7_witness :
    apply_events boolView ⟨"balance", none⟩ (emptyDb.insert "balance" "acct-1" "true")
      "acct-1" ([] : List Bool) =
      .ok ((emptyDb.insert "balance" "acct-1" "true").insert "balance" "acct-1" "true") [] ∧
    boolView.fromSlice "true" = .ok true ∧
    applyEmptyIter boolView ⟨"balance", none⟩ "acct-1" 4
      (emptyDb.insert "balance" "acct-1" "true") =
      .ok ((emptyDb.insert "balance" "acct-1" "true").insert "balance" "acct-1" "true") [] :=
  have h := c7_apply_events_empty_idempotent boolView ⟨"balance", none⟩ encBool
    (fun _ => rfl) (fun v => by cases v <;> rfl)
    (emptyDb.insert "balance" "acct-1" "true")
    (Db.faultFree_insert ⟨fun _ => rfl, fun _ _ => rfl, fun _ _ => rfl⟩ _ _ _)
    "acct-1" true (.inr (Db.insert_trees_self emptyDb "balance" "acct-1" "true"))
  ⟨h.1, h.2.1, h.2.2 3⟩

end SledEs
